import Mathlib

/-!
Verification of the I/O substrate of gzip's `util.c`: checksum accumulator,
input/output buffering, write-with-retry, the passthrough copier, and the
error classification paths.  Machine integers are modelled as `Nat`
(bytes are `Nat` values; the 32-bit CRC accumulator is kept in range by
masking with `crcMask`).  Process-global variables (`crc`, `bytes_in`,
`bytes_out`, `insize`, `inptr`, `outcnt` and the buffers) become an explicit
state record `St` threaded through every operation.  Fatal error paths
(`read_error`, `write_error`, `abort_gzip`) become explicit outcome values.
-/

namespace GzipUtil

/-- Modelled from the spec: `crc32_update` (declared in `crc.h`, body not in
this excerpt) is the "standard incremental update" of the CRC-32 checksum
accumulator over a byte span, starting from the current accumulator value.
This is the standard reflected CRC-32: complement the accumulator, fold each
byte through eight polynomial bit steps, complement again.
`crcMask` is the 32-bit all-ones word used for the complement. -/
def crcMask : Nat := 0xFFFFFFFF

/-- The reflected CRC-32 polynomial. -/
def crc32poly : Nat := 0xEDB88320

/-- One bit step of the reflected CRC-32 shift register. -/
def crc32bit (c : Nat) : Nat :=
  if c % 2 = 1 then (c / 2) ^^^ crc32poly else c / 2

/-- Fold one byte into the CRC-32 shift register: XOR the byte in, then run
eight polynomial bit steps. -/
def crc32byte (c b : Nat) : Nat := crc32bit^[8] (c ^^^ (b % 256))

/-- Modelled from the spec: `crc32_update crc s` — the standard incremental
CRC-32 update over the bytes `s` starting from accumulator value `crc`
(pre- and post-complemented, as the checksum contract requires so that
chaining calls continues the same stream). -/
def crc32_update (c : Nat) (s : List Nat) : Nat :=
  (s.foldl crc32byte (c ^^^ crcMask)) ^^^ crcMask

/-- `updcrc s n c` : util.c lines 73-78.  `s` is the optional byte span
(`none` models the NULL pointer); `n` the count; `c` the current value of the
global shift register `crc`.  Returns the new value of `crc`:
`crc = (s == NULL ? 0 : crc32_update (crc, s, n)); return crc;`. -/
def updcrc (s : Option (List Nat)) (n : Nat) (c : Nat) : Nat :=
  match s with
  | none => 0
  | some bytes => crc32_update c (bytes.take n)

/-! ## Process-global state

The globals of util.c (`crc`, `bytes_in`, `bytes_out`, `insize`, `inptr`,
`outcnt`, and the `inbuf`/`window`/`outbuf` byte arrays) as one record. -/

structure St where
  crc : Nat
  bytes_in : Nat
  bytes_out : Nat
  insize : Nat
  inptr : Nat
  outcnt : Nat
  inbuf : List Nat
  window : List Nat
  outbuf : List Nat
deriving Repr, DecidableEq

/-- `clear_bufs` : util.c lines 99-104.
`outcnt = 0; insize = inptr = 0; bytes_in = bytes_out = 0L;` -/
def clear_bufs (s : St) : St :=
  { s with outcnt := 0, insize := 0, inptr := 0, bytes_in := 0, bytes_out := 0 }

/-! ## Write-with-retry (`write_buf`)

`write_buffer` (the capped `write` wrapper) is modelled by an oracle script:
a list of per-call results, `some n` meaning the call returned `n` (bytes
transferred) and `none` meaning it returned `(unsigned)(-1)` (failure).
A real `write` never transfers more than requested, so the remaining payload
is carried as the list of bytes still to write and `cnt` is its length. -/

/-- The retry loop of `write_buf` (util.c lines 214-220):
`while ((n = write_buffer (fd, buf, cnt)) != cnt) { if (n == -1) write_error
(); cnt -= n; buf += n; }`.  Returns `some chunks` — the list of byte spans
physically handed to `write_buffer` — when the loop exits normally, `none`
when `write_error` is raised or the oracle script runs out. -/
def wloop : List (Option Nat) → List Nat → Option (List (List Nat))
  | [], _ => none
  | none :: _, _ => none
  | some n :: rest, buf =>
    if n = buf.length then some [buf]
    else
      match wloop rest (buf.drop n) with
      | none => none
      | some ws => some (buf.take n :: ws)

/-- `write_buf` : util.c lines 205-221.  First statement is
`bytes_out += cnt` (unconditional); then `if (test) return;`; then the retry
loop.  Result: the new `bytes_out` paired with the physical writes (empty
list in test mode, `none` if the loop raised). -/
def write_buf (test : Bool) (os : List (Option Nat)) (buf : List Nat)
    (bytesOut : Nat) : Nat × Option (List (List Nat)) :=
  (bytesOut + buf.length, if test then some [] else wloop os buf)

/-- A writer-behaviour script under which the retry loop terminates
normally: each call succeeds, transfers at least one byte and at most the
requested count, and the final call transfers exactly the remaining count. -/
def oracleDelivers : List (Option Nat) → Nat → Bool
  | [], _ => false
  | none :: _, _ => false
  | some n :: rest, cnt =>
    if n = cnt then true
    else decide (1 ≤ n) && decide (n < cnt) && oracleDelivers rest (cnt - n)

/-! ## Successful single-call writer

The flush paths below drive `write_buf` with a writer that accepts the whole
span in one call (the error-free writer): the oracle `[some buf.length]`
makes `wloop` return `some [buf]`, so the `getD` default is never hit. -/

def write_buf_full (test : Bool) (buf : List Nat) (bytesOut : Nat) :
    Nat × List (List Nat) :=
  let r := write_buf test [some buf.length] buf bytesOut
  (r.1, r.2.getD [])

/-! ## Output flush protocols -/

/-- `flush_outbuf` : util.c lines 180-186.  `if (outcnt == 0) return;
write_buf (ofd, outbuf, outcnt); outcnt = 0;` — no checksum update.
Returns the new state and the physical writes performed. -/
def flush_outbuf (test : Bool) (s : St) : St × List (List Nat) :=
  if s.outcnt = 0 then (s, [])
  else
    let data := s.outbuf.take s.outcnt
    let r := write_buf_full test data s.bytes_out
    ({ s with bytes_out := r.1, outcnt := 0 }, r.2)

/-- `flush_window` : util.c lines 192-199.  `if (outcnt == 0) return;
updcrc (window, outcnt); write_buf (ofd, window, outcnt); outcnt = 0;` —
the checksum is fed before the write. -/
def flush_window (test : Bool) (s : St) : St × List (List Nat) :=
  if s.outcnt = 0 then (s, [])
  else
    let data := s.window.take s.outcnt
    let c2 := updcrc (some data) s.outcnt s.crc
    let r := write_buf_full test data s.bytes_out
    ({ s with crc := c2, bytes_out := r.1, outcnt := 0 }, r.2)

/-! ## Input buffer refill (`fill_inbuf`)

`read_buffer` (the capped `read` wrapper) is modelled by a script: each
entry is one call's result, `chunk data` a successful read returning
`data.length` bytes (`chunk []` is a zero read, i.e. end of stream) and
`rerr` a read returning `-1`.  An exhausted script behaves as an
end-of-stream source (further reads return 0). -/

inductive RdRes where
  | chunk (data : List Nat)
  | rerr
deriving Repr, DecidableEq

/-- `INBUFSIZ` (gzip.h): input buffer capacity. -/
def INBUFSIZ : Nat := 0x8000

/-- The read loop of `fill_inbuf` (util.c lines 116-125):
`insize = 0; do { len = read_buffer (ifd, inbuf + insize, INBUFSIZ -
insize); if (len == 0) break; if (len == -1) { read_error (); break; }
insize += len; } while (insize < INBUFSIZ);`
`.ok acc` is the buffered data when the loop exits normally; `.error acc`
the partial data at the point `read_error ()` aborted. -/
def readLoop (cap : Nat) : List RdRes → List Nat → Except (List Nat) (List Nat)
  | [], acc => .ok acc
  | RdRes.rerr :: _, acc => .error acc
  | RdRes.chunk [] :: _, acc => .ok acc
  | RdRes.chunk d :: rs, acc =>
    let acc2 := acc ++ d
    if acc2.length < cap then readLoop cap rs acc2 else .ok acc2

/-- Result of `fill_inbuf`: the returned first byte, the `EOF` return, or a
fatal abort via `read_error`. -/
inductive FillRes where
  | byteR (b : Nat)
  | eofR
  | fatal
deriving Repr, DecidableEq

/-- `fill_inbuf` : util.c lines 110-136.  After the read loop: if
`insize == 0` then `if (eof_ok) return EOF; flush_window (); errno = 0;
read_error ();`; otherwise `bytes_in += insize; inptr = 1;
return inbuf[0];`.  Result: the returned value, the final state, and the
physical writes performed (the unexpected-EOF path flushes the window). -/
def fill_inbuf (test : Bool) (script : List RdRes) (eof_ok : Bool) (s : St) :
    FillRes × St × List (List Nat) :=
  match readLoop INBUFSIZ script [] with
  | .error acc =>
    (FillRes.fatal, { s with insize := acc.length, inbuf := acc }, [])
  | .ok data =>
    if data.length = 0 then
      if eof_ok then (FillRes.eofR, { s with insize := 0 }, [])
      else
        let r := flush_window test { s with insize := 0 }
        (FillRes.fatal, r.1, r.2)
    else
      (FillRes.byteR (data.headD 0),
       { s with insize := data.length, inbuf := data,
                bytes_in := s.bytes_in + data.length, inptr := 1 }, [])

/-- A concrete all-zero state for witnesses and counterexamples. -/
def st0 : St :=
  { crc := 0, bytes_in := 0, bytes_out := 0, insize := 0, inptr := 0,
    outcnt := 0, inbuf := [], window := [], outbuf := [] }

/-! ## Passthrough copier (`copy`) -/

/-- Result of `copy`: `okR` models the normal `return OK`, `fatalR` the
abort via `read_error`. -/
inductive CopyRes where
  | okR
  | fatalR
deriving Repr, DecidableEq

/-- `copy` : util.c lines 49-65.
`while (insize > inptr) { write_buf (out, inbuf + inptr, insize - inptr);
got = read_buffer (in, inbuf, INBUFSIZ); if (got == -1) read_error ();
bytes_in += got; insize = got; inptr = 0; } return OK;`
The input-side `read_buffer` calls consume the script; the result carries
the final state and the list of spans passed to the writer.  The loop body
is spelled once per shape of the next read result so that each equation
reduces on the script's head; each iteration first checks the loop
condition, then writes the unread remainder, then classifies `got`. -/
def copy (test : Bool) : List RdRes → St → CopyRes × St × List (List Nat)
  | [], s =>
    if s.insize ≤ s.inptr then (CopyRes.okR, s, [])
    else
      let r := write_buf_full test ((s.inbuf.take s.insize).drop s.inptr)
        s.bytes_out
      (CopyRes.okR, { s with bytes_out := r.1, insize := 0, inptr := 0 }, r.2)
  | RdRes.rerr :: _, s =>
    if s.insize ≤ s.inptr then (CopyRes.okR, s, [])
    else
      let r := write_buf_full test ((s.inbuf.take s.insize).drop s.inptr)
        s.bytes_out
      (CopyRes.fatalR, { s with bytes_out := r.1 }, r.2)
  | RdRes.chunk d :: rest, s =>
    if s.insize ≤ s.inptr then (CopyRes.okR, s, [])
    else
      let r := write_buf_full test ((s.inbuf.take s.insize).drop s.inptr)
        s.bytes_out
      let sub := copy test rest
        { s with bytes_out := r.1, bytes_in := s.bytes_in + d.length,
                 insize := d.length, inptr := 0, inbuf := d }
      (sub.1, sub.2.1, r.2 ++ sub.2.2)

/-- A concrete state whose input buffer holds three unread bytes. -/
def stCopy : St := { st0 with insize := 3, inbuf := [1, 2, 3] }

/-- The chunk data consumed and written by `copy`: the successful nonempty
reads up to the first zero read, read failure, or script end. -/
def chunksData : List RdRes → List (List Nat)
  | [] => []
  | RdRes.rerr :: _ => []
  | RdRes.chunk [] :: _ => []
  | RdRes.chunk d :: rest => d :: chunksData rest

/-- The scripts containing no failing read. -/
def errFree : List RdRes → Bool
  | [] => true
  | RdRes.rerr :: _ => false
  | RdRes.chunk _ :: rest => errFree rest

/-! ## Test-mode invariance driver

A run is a sequence of buffer-layer operations: refills, the two flushes,
and the external producer depositing bytes into `window`/`outbuf` (setting
`outcnt`), exactly as the codec does between flushes.  Each step yields the
next state, the physical writes performed, and whether a fatal error
aborted the process (halting the run). -/

inductive Op where
  | refill (eof_ok : Bool) (script : List RdRes)
  | flushW
  | flushO
  | loadWindow (data : List Nat)
  | loadOutbuf (data : List Nat)
deriving Repr

def step (test : Bool) (s : St) : Op → St × List (List Nat) × Bool
  | Op.loadWindow data =>
    ({ s with window := data, outcnt := data.length }, [], false)
  | Op.loadOutbuf data =>
    ({ s with outbuf := data, outcnt := data.length }, [], false)
  | Op.flushW =>
    let r := flush_window test s
    (r.1, r.2, false)
  | Op.flushO =>
    let r := flush_outbuf test s
    (r.1, r.2, false)
  | Op.refill eof_ok script =>
    let r := fill_inbuf test script eof_ok s
    (r.2.1, r.2.2, decide (r.1 = FillRes.fatal))

def run (test : Bool) : List Op → St → St × List (List Nat)
  | [], s => (s, [])
  | op :: ops, s =>
    let r := step test s op
    if r.2.2 then (r.1, r.2.1)
    else
      let rr := run test ops r.1
      (rr.1, r.2.1 ++ rr.2)

/-! ## Error classification paths -/

/-- Exit codes from gzip.h. -/
def OK : Nat := 0

def ERROR : Nat := 1

def WARNING : Nat := 2

/-- Outcome of an error-handling entry point: the severity it terminates the
current operation with, whether the diagnostic line was printed, and whether
the handler terminates (none of them return to normal flow). -/
structure ErrReport where
  exitcode : Nat
  printed : Bool
  terminated : Bool
deriving Repr, DecidableEq

/-- `write_error` : util.c lines 384-390.
`int exitcode = errno == EPIPE ? WARNING : ERROR; if (! (exitcode == WARNING
&& quiet)) fprintf (stderr, ...); finish_up_gzip (exitcode);` -/
def write_error (errnoIsEpipe : Bool) (quiet : Bool) : ErrReport :=
  let exitcode := if errnoIsEpipe then WARNING else ERROR
  { exitcode := exitcode
    printed := !(decide (exitcode = WARNING) && quiet)
    terminated := true }

/-- `gzip_error` : util.c lines 357-362 — the normal fatal-diagnostic
format `"\n<programName>: <displayName>: <message>\n"` followed by
`abort_gzip`.  Returns the printed line and the aborted flag. -/
def gzip_error (programName displayName m : String) : String × Bool :=
  ("\n" ++ programName ++ ": " ++ displayName ++ ": " ++ m ++ "\n", true)

/-- `xalloc_die` : util.c lines 364-369.
`fprintf (stderr, "\n%s: memory_exhausted\n", program_name); abort_gzip ();`
Returns the printed line and the aborted flag. -/
def xalloc_die (programName : String) : String × Bool :=
  ("\n" ++ programName ++ ": memory_exhausted\n", true)

/-! ## Theorems -/

theorem xor_mask_cancel (x : Nat) : (x ^^^ crcMask) ^^^ crcMask = x := by
  rw [Nat.xor_assoc, Nat.xor_self, Nat.xor_zero]

/-- `crc32_update` chains across concatenation. -/
theorem crc32_update_append (c : Nat) (a b : List Nat) :
    crc32_update (crc32_update c a) b = crc32_update c (a ++ b) := by
  unfold crc32_update
  rw [List.foldl_append, xor_mask_cancel]

/-- C1: Checksum streaming equivalence — for every accumulator value `v` and
byte sequences `a` and `b`, feeding `a` then `b` through `updcrc` (non-null
spans) equals feeding the concatenation `a ++ b` in a single call. -/
theorem updcrc_streaming (v : Nat) (a b : List Nat) :
    updcrc (some b) b.length (updcrc (some a) a.length v)
      = updcrc (some (a ++ b)) (a ++ b).length v := by
  simp only [updcrc, List.take_length]
  rw [crc32_update_append]

/-- C9: the reset sentinel is the null pointer, not the zero length — for
every accumulator `v`, length `n` and non-null span `s`, `updcrc NULL n`
resets to 0, while `updcrc s 0` returns `v` unchanged. -/
theorem updcrc_null_resets_zero_len_id (v n : Nat) (s : List Nat) :
    updcrc none n v = 0 ∧ updcrc (some s) 0 v = v := by
  refine ⟨rfl, ?_⟩
  simp only [updcrc, List.take_zero, crc32_update, List.foldl_nil]
  exact xor_mask_cancel v

/-- C10: `clear_bufs` zeroes the output pending count, the input fill and
consume cursors, and both byte counters, but leaves the checksum accumulator
`crc` unchanged. -/
theorem clear_bufs_frame (s : St) :
    (clear_bufs s).outcnt = 0 ∧ (clear_bufs s).insize = 0 ∧
    (clear_bufs s).inptr = 0 ∧ (clear_bufs s).bytes_in = 0 ∧
    (clear_bufs s).bytes_out = 0 ∧ (clear_bufs s).crc = s.crc :=
  ⟨rfl, rfl, rfl, rfl, rfl, rfl⟩

theorem wloop_delivers (os : List (Option Nat)) : ∀ buf : List Nat,
    oracleDelivers os buf.length = true →
    (wloop os buf).map List.flatten = some buf := by
  induction os with
  | nil => intro buf h; simp [oracleDelivers] at h
  | cons o rest ih =>
    intro buf h
    match o with
    | none => simp [oracleDelivers] at h
    | some n =>
      by_cases hn : n = buf.length
      · subst hn
        simp [wloop]
      · rw [oracleDelivers, if_neg hn] at h
        simp only [Bool.and_eq_true, decide_eq_true_eq] at h
        obtain ⟨⟨h1, hlt⟩, hrest⟩ := h
        have hdl : (buf.drop n).length = buf.length - n := List.length_drop n buf
        have := ih (buf.drop n) (by rw [hdl]; exact hrest)
        unfold wloop
        rw [if_neg hn]
        cases hw : wloop rest (buf.drop n) with
        | none => rw [hw] at this; simp at this
        | some ws =>
          rw [hw] at this
          have hj : ws.flatten = buf.drop n := Option.some.inj this
          show some ((buf.take n :: ws).flatten) = some buf
          rw [List.flatten_cons, hj, List.take_append_drop]

/-- C3: short-write tolerance — `bytes_out` is incremented exactly once by
the originally requested count, before any write is attempted (i.e. for
every oracle, including failing ones); and under any writer behaviour in
which each call succeeds but may transfer as little as one byte, the loop
delivers the full payload: the concatenation of the physical writes equals
the requested buffer. -/
theorem write_buf_short_write_tolerance (os : List (Option Nat))
    (buf : List Nat) (b0 : Nat) :
    (write_buf false os buf b0).1 = b0 + buf.length ∧
    (oracleDelivers os buf.length = true →
      ((write_buf false os buf b0).2).map List.flatten = some buf) := by
  refine ⟨rfl, fun h => ?_⟩
  simpa [write_buf] using wloop_delivers os buf h

/-- Witness for C3: a writer that accepts one byte per call still delivers
the three-byte payload, and `bytes_out` grows by exactly 3. -/
theorem write_buf_short_write_tolerance_witness :
    (write_buf false [some 1, some 1, some 1] [5, 6, 7] 10).1 = 10 + 3 ∧
    ((write_buf false [some 1, some 1, some 1] [5, 6, 7] 10).2).map List.flatten
      = some [5, 6, 7] :=
  ⟨(write_buf_short_write_tolerance [some 1, some 1, some 1] [5, 6, 7] 10).1,
   (write_buf_short_write_tolerance [some 1, some 1, some 1] [5, 6, 7] 10).2
     (by decide)⟩

/-- C6: refill postcondition — when the read loop buffered nothing, `eof_ok`
makes `fill_inbuf` return `EOF` without raising, while `¬eof_ok` flushes
pending output and raises a fatal read error; when the loop buffered
`filled > 0` bytes, `bytes_in` grows by `filled`, the consume cursor is set
to 1, and the byte at offset 0 of the buffer is returned. -/
theorem fill_inbuf_postcondition (test : Bool) (script : List RdRes)
    (eof_ok : Bool) (s : St) :
    (readLoop INBUFSIZ script [] = .ok [] → eof_ok = true →
      fill_inbuf test script eof_ok s
        = (FillRes.eofR, { s with insize := 0 }, [])) ∧
    (readLoop INBUFSIZ script [] = .ok [] → eof_ok = false →
      (fill_inbuf test script eof_ok s).1 = FillRes.fatal ∧
      (fill_inbuf test script eof_ok s).2
        = flush_window test { s with insize := 0 }) ∧
    (∀ b d, readLoop INBUFSIZ script [] = .ok (b :: d) →
      fill_inbuf test script eof_ok s
        = (FillRes.byteR b,
           { s with insize := (b :: d).length, inbuf := b :: d,
                    bytes_in := s.bytes_in + (b :: d).length, inptr := 1 },
           [])) := by
  refine ⟨fun h he => ?_, fun h he => ?_, fun b d h => ?_⟩
  · simp [fill_inbuf, h, he]
  · subst he
    simp [fill_inbuf, h]
  · simp [fill_inbuf, h]

/-- Witness for C6: a two-byte source yields `byteR 7`, `bytes_in = 2`,
`inptr = 1`; applying the postcondition theorem at that input. -/
theorem fill_inbuf_postcondition_witness :
    fill_inbuf false [RdRes.chunk [7, 8]] true st0
      = (FillRes.byteR 7,
         { st0 with insize := 2, inbuf := [7, 8], bytes_in := 2, inptr := 1 },
         []) :=
  (fill_inbuf_postcondition false [RdRes.chunk [7, 8]] true st0).2.2 7 [8] rfl

/-- Counterexample to C4: with `eof_ok` set and zero bytes read so far, a
failing read still raises the fatal read error — `fill_inbuf` does not
return `EOF` as the claim states. -/
theorem fill_inbuf_read_failure_not_eof :
    (fill_inbuf false [RdRes.rerr] true st0).1 = FillRes.fatal ∧
    (fill_inbuf false [RdRes.rerr] true st0).1 ≠ FillRes.eofR :=
  ⟨rfl, by decide⟩

/-- C4 (amended): during the read loop of `fill_inbuf`, a failing read
raises a fatal read error unconditionally — `eof_ok` and the number of bytes
read so far give no exemption; `eof_ok` only governs the classification
after the loop when reads returned zero bytes. -/
theorem fill_inbuf_read_failure_always_fatal (test : Bool)
    (script : List RdRes) (eof_ok : Bool) (s : St) (acc : List Nat)
    (h : readLoop INBUFSIZ script [] = .error acc) :
    (fill_inbuf test script eof_ok s).1 = FillRes.fatal := by
  simp [fill_inbuf, h]

/-- Witness for the amended C4: a first read that fails, with `eof_ok`
set, is fatal. -/
theorem fill_inbuf_read_failure_always_fatal_witness :
    (fill_inbuf true [RdRes.rerr] true st0).1 = FillRes.fatal :=
  fill_inbuf_read_failure_always_fatal true [RdRes.rerr] true st0 [] rfl

/-- Counterexample to C5: a read returning zero bytes (end of file) makes
the loop condition `insize > inptr` false and `copy` returns `OK` — `copy`
terminates normally on EOF, not only via a fatal read error. -/
theorem copy_eof_terminates_normally :
    (copy false [RdRes.chunk []] stCopy).1 = CopyRes.okR ∧
    (copy false [RdRes.chunk []] stCopy).1 ≠ CopyRes.fatalR := by
  constructor
  · rfl
  · decide

/-- When the loop condition already fails, `copy` returns `OK` at once. -/
theorem copy_stop (test : Bool) (script : List RdRes) (s : St)
    (h : s.insize ≤ s.inptr) : copy test script s = (CopyRes.okR, s, []) := by
  cases script with
  | nil => simp only [copy]; rw [if_pos h]
  | cons hd rest =>
    cases hd with
    | chunk d => simp only [copy]; rw [if_pos h]
    | rerr => simp only [copy]; rw [if_pos h]

/-- C5 (amended): on an error-free source, `copy` writes the unread
remainder of the input buffer followed by each successfully read chunk,
adds the read byte counts to `bytes_in`, resets the cursor to 0, and—when a
read returns zero bytes (end of file)—terminates normally returning `OK`
rather than raising. -/
theorem copy_passthrough (test : Bool) (script : List RdRes) : ∀ s : St,
    errFree script = true → s.inptr < s.insize →
    (copy test script s).1 = CopyRes.okR ∧
    ((copy test script s).2.2
      = if test then []
        else ((s.inbuf.take s.insize).drop s.inptr) :: chunksData script) ∧
    (copy test script s).2.1.bytes_in
      = s.bytes_in + ((chunksData script).map List.length).sum ∧
    (copy test script s).2.1.inptr = 0 := by
  induction script with
  | nil =>
    intro s hf hs
    have hns : ¬ s.insize ≤ s.inptr := not_le.mpr hs
    simp only [copy, if_neg hns]
    refine ⟨by trivial, ?_, by simp [chunksData], by trivial⟩
    cases test with
    | false => simp [write_buf_full, write_buf, wloop, chunksData]
    | true => simp [write_buf_full, write_buf, chunksData]
  | cons hd rest ih =>
    intro s hf hs
    have hns : ¬ s.insize ≤ s.inptr := not_le.mpr hs
    cases hd with
    | rerr => simp [errFree] at hf
    | chunk d =>
      have hf2 : errFree rest = true := by simpa [errFree] using hf
      cases d with
      | nil =>
        simp only [copy, if_neg hns]
        rw [copy_stop test rest _ (by simp)]
        refine ⟨by trivial, ?_, by simp [chunksData], by trivial⟩
        cases test with
        | false => simp [write_buf_full, write_buf, wloop, chunksData]
        | true => simp [write_buf_full, write_buf, chunksData]
      | cons b d2 =>
        obtain ⟨i1, i2, i3, i4⟩ := ih
          { s with
              bytes_out := (write_buf_full test
                ((s.inbuf.take s.insize).drop s.inptr) s.bytes_out).1,
              bytes_in := s.bytes_in + (b :: d2).length,
              insize := (b :: d2).length, inptr := 0, inbuf := b :: d2 }
          hf2 (by simp)
        simp only [copy, if_neg hns]
        refine ⟨i1, ?_, ?_, i4⟩
        · rw [i2]
          cases test with
          | false =>
            simp [write_buf_full, write_buf, wloop, chunksData,
              List.take_length, List.drop_zero]
          | true => simp [write_buf_full, write_buf]
        · rw [i3]
          simp [chunksData, Nat.add_assoc]

/-- Witness for the amended C5: three unread bytes, then one two-byte chunk,
then EOF: `copy` returns `OK`, writes `[1,2,3]` then `[4,5]`, and adds 2 to
`bytes_in`. -/
theorem copy_passthrough_witness :
    (copy false [RdRes.chunk [4, 5]] stCopy).1 = CopyRes.okR ∧
    ((copy false [RdRes.chunk [4, 5]] stCopy).2.2
      = if False then []
        else ((stCopy.inbuf.take stCopy.insize).drop stCopy.inptr)
          :: chunksData [RdRes.chunk [4, 5]]) ∧
    (copy false [RdRes.chunk [4, 5]] stCopy).2.1.bytes_in
      = stCopy.bytes_in
        + ((chunksData [RdRes.chunk [4, 5]]).map List.length).sum ∧
    (copy false [RdRes.chunk [4, 5]] stCopy).2.1.inptr = 0 :=
  copy_passthrough false [RdRes.chunk [4, 5]] stCopy (by decide) (by decide)

theorem write_buf_full_test (buf : List Nat) (b : Nat) :
    (write_buf_full true buf b).1 = (write_buf_full false buf b).1 ∧
    (write_buf_full true buf b).2 = [] := by
  simp [write_buf_full, write_buf]

theorem flush_window_test (s : St) :
    (flush_window true s).1 = (flush_window false s).1 ∧
    (flush_window true s).2 = [] := by
  unfold flush_window
  by_cases h : s.outcnt = 0
  · simp [h]
  · simp [h, write_buf_full, write_buf]

theorem flush_outbuf_test (s : St) :
    (flush_outbuf true s).1 = (flush_outbuf false s).1 ∧
    (flush_outbuf true s).2 = [] := by
  unfold flush_outbuf
  by_cases h : s.outcnt = 0
  · simp [h]
  · simp [h, write_buf_full, write_buf]

theorem fill_inbuf_test (script : List RdRes) (eof_ok : Bool) (s : St) :
    (fill_inbuf true script eof_ok s).1
      = (fill_inbuf false script eof_ok s).1 ∧
    (fill_inbuf true script eof_ok s).2.1
      = (fill_inbuf false script eof_ok s).2.1 ∧
    (fill_inbuf true script eof_ok s).2.2 = [] := by
  unfold fill_inbuf
  cases h : readLoop INBUFSIZ script [] with
  | error acc => simp
  | ok data =>
    by_cases hd : data.length = 0
    · cases eof_ok with
      | true => simp [hd]
      | false =>
        have hw := flush_window_test { s with insize := 0 }
        simp [hd, hw.1, hw.2]
    · simp [hd]

theorem step_test (op : Op) (s : St) :
    (step true s op).1 = (step false s op).1 ∧
    (step true s op).2.1 = [] ∧
    (step true s op).2.2 = (step false s op).2.2 := by
  cases op with
  | loadWindow data => exact ⟨rfl, rfl, rfl⟩
  | loadOutbuf data => exact ⟨rfl, rfl, rfl⟩
  | flushW =>
    have h := flush_window_test s
    simp [step, h.1, h.2]
  | flushO =>
    have h := flush_outbuf_test s
    simp [step, h.1, h.2]
  | refill eof_ok script =>
    have h := fill_inbuf_test script eof_ok s
    simp [step, h.1, h.2.1, h.2.2]

theorem run_test (ops : List Op) : ∀ s : St,
    (run true ops s).1 = (run false ops s).1 ∧ (run true ops s).2 = [] := by
  induction ops with
  | nil => intro s; exact ⟨rfl, rfl⟩
  | cons op ops ih =>
    intro s
    have h := step_test op s
    simp only [run]
    rw [h.2.2, h.1, h.2.1]
    by_cases hb : (step false s op).2.2 = true
    · simp [hb]
    · have hb2 : (step false s op).2.2 = false := by simpa using hb
      simp [hb2, (ih _).1, (ih _).2]

/-- C2: test-mode invariance — over any sequence of refill/flush operations
on any initial state, the run with the test flag set yields the same
`bytes_in`, `bytes_out` and checksum as the run with it clear, and the
test-mode run performs zero physical writes. -/
theorem test_mode_invariance (ops : List Op) (s : St) :
    (run true ops s).1.bytes_in = (run false ops s).1.bytes_in ∧
    (run true ops s).1.bytes_out = (run false ops s).1.bytes_out ∧
    (run true ops s).1.crc = (run false ops s).1.crc ∧
    (run true ops s).2 = [] := by
  have h := run_test ops s
  exact ⟨by rw [h.1], by rw [h.1], by rw [h.1], h.2⟩

/-- C7: write-failure classification — an EPIPE failure terminates at
warning severity with the diagnostic suppressed exactly when quiet mode is
active; every other write failure terminates at fatal (ERROR) severity with
the diagnostic always printed. -/
theorem write_error_classification (quiet : Bool) :
    ((write_error true quiet).exitcode = WARNING ∧
     (write_error true quiet).printed = !quiet ∧
     (write_error true quiet).terminated = true) ∧
    ((write_error false quiet).exitcode = ERROR ∧
     (write_error false quiet).printed = true ∧
     (write_error false quiet).terminated = true) := by
  cases quiet <;> exact ⟨⟨rfl, rfl, rfl⟩, ⟨rfl, rfl, rfl⟩⟩

/-- C8 (code bug): allocation failure is a fatal abort whose message
bypasses the normal `"<programName>: <displayName>: <message>"` formatting,
but the fixed message the code prints is `"memory_exhausted"` (with an
underscore), not the documented `"memory exhausted"`. -/
theorem xalloc_die_message_underscore :
    (xalloc_die "gzip").2 = true ∧
    (xalloc_die "gzip").1 = "\ngzip: memory_exhausted\n" ∧
    (xalloc_die "gzip").1 ≠ "\ngzip: memory exhausted\n" := by
  refine ⟨rfl, rfl, ?_⟩
  decide

end GzipUtil
